import Mathlib

set_option maxRecDepth 8192

/-!
Shallow embedding of the gesture-and-shape recognition engine of the
AR-mukbang repository (src/app.py).  Coordinates are modelled as exact
real numbers; the Python lists of 2D points become Lean lists of pairs.
The stateful per-frame logic of process_frame (lines 262-291 of
src/app.py) becomes an explicit state-passing function over an
EngineState record.
-/

noncomputable section

open Classical

namespace ARMukbang

/-- A 2D trajectory point (normalized image coordinates), as stored in
the Python drawing_points list. -/
abbrev Pt : Type := ℝ × ℝ

/-- A 3D hand landmark (x, y, z) as produced by the landmark model. -/
abbrev Landmark : Type := ℝ × ℝ × ℝ

/-- src/app.py line 78-79: 3D Euclidean distance between two landmarks. -/
def calculate_distance (p1 p2 : Landmark) : ℝ :=
  Real.sqrt ((p1.1 - p2.1) ^ 2 + (p1.2.1 - p2.2.1) ^ 2 + (p1.2.2 - p2.2.2) ^ 2)

/-- src/app.py line 81-82: 2D Euclidean distance between two points. -/
def calculate_distance_2d (p1 p2 : Pt) : ℝ :=
  Real.sqrt ((p1.1 - p2.1) ^ 2 + (p1.2 - p2.2) ^ 2)

/-- src/app.py lines 84-89: a finger is extended iff its tip is farther
from the wrist than its pip joint is. -/
def is_finger_extended (landmarks : List Landmark) (finger_tip_id finger_pip_id : ℕ)
    (wrist : Landmark) : Prop :=
  calculate_distance (landmarks.getD finger_tip_id (0, 0, 0)) wrist >
    calculate_distance (landmarks.getD finger_pip_id (0, 0, 0)) wrist

/-- src/app.py lines 91-99: POINTING pose. -/
def detect_index_pointing (landmarks : List Landmark) : Prop :=
  let wrist := landmarks.getD 0 (0, 0, 0)
  is_finger_extended landmarks 8 6 wrist ∧
    ¬ is_finger_extended landmarks 12 10 wrist ∧
    ¬ is_finger_extended landmarks 16 14 wrist ∧
    ¬ is_finger_extended landmarks 20 18 wrist

/-- src/app.py lines 101-109: FIST pose. -/
def detect_fist (landmarks : List Landmark) : Prop :=
  let wrist := landmarks.getD 0 (0, 0, 0)
  ¬ is_finger_extended landmarks 8 6 wrist ∧
    ¬ is_finger_extended landmarks 12 10 wrist ∧
    ¬ is_finger_extended landmarks 16 14 wrist ∧
    ¬ is_finger_extended landmarks 20 18 wrist

/-- Maximum of a list of reals (np.max on a nonempty array; the value on
the empty list is irrelevant because every use is behind a length guard). -/
def maxR : List ℝ → ℝ
  | [] => 0
  | [a] => a
  | a :: b :: t => max a (maxR (b :: t))

/-- Minimum of a list of reals (np.min on a nonempty array). -/
def minR : List ℝ → ℝ
  | [] => 0
  | [a] => a
  | a :: b :: t => min a (minR (b :: t))

/-- The x coordinates of a point list (points_array[:, 0]). -/
def xsOf (points : List Pt) : List ℝ := points.map Prod.fst

/-- The y coordinates of a point list (points_array[:, 1]). -/
def ysOf (points : List Pt) : List ℝ := points.map Prod.snd

/-- Bounding-box width: np.max(x_coords) - np.min(x_coords). -/
def bbWidth (points : List Pt) : ℝ := maxR (xsOf points) - minR (xsOf points)

/-- Bounding-box height: np.max(y_coords) - np.min(y_coords). -/
def bbHeight (points : List Pt) : ℝ := maxR (ysOf points) - minR (ysOf points)

/-- center_x = (np.min(x_coords) + np.max(x_coords)) / 2. -/
def centerX (points : List Pt) : ℝ := (minR (xsOf points) + maxR (xsOf points)) / 2

/-- center_y = (np.min(y_coords) + np.max(y_coords)) / 2. -/
def centerY (points : List Pt) : ℝ := (minR (ysOf points) + maxR (ysOf points)) / 2

/-- The list of distances from each point to the bounding-box center
(src/app.py line 143). -/
def distList (points : List Pt) : List ℝ :=
  points.map (fun p => calculate_distance_2d p (centerX points, centerY points))

/-- np.mean of a list of reals. -/
def meanR (l : List ℝ) : ℝ := l.sum / l.length

/-- np.std of a list of reals (population standard deviation). -/
def stdR (l : List ℝ) : ℝ :=
  Real.sqrt ((l.map (fun d => (d - meanR l) ^ 2)).sum / l.length)

/-- closure_distance: distance between the first and last buffer point
(src/app.py lines 134-136, with points[0] and points[-1]). -/
def closureDist (points : List Pt) : ℝ :=
  calculate_distance_2d (points.headD (0, 0)) (points.getLastD (0, 0))

/-- src/app.py lines 111-149: the circle test.  Returns the pair
(is_circle, optional center), mirroring the Python control flow guard by
guard. -/
def check_circle_shape (points : List Pt) : Bool × Option Pt :=
  if points.length < 10 then (false, none)
  else if bbWidth points < 0.05 ∨ bbHeight points < 0.05 then (false, none)
  else if min (bbWidth points) (bbHeight points) / max (bbWidth points) (bbHeight points) < 0.6
    then (false, none)
  else if (bbWidth points + bbHeight points) / 4 * 0.5 < closureDist points then (false, none)
  else if (if 0 < meanR (distList points)
              then stdR (distList points) / meanR (distList points)
              else 1) < 0.5
    then (true, some (centerX points, centerY points))
  else (false, none)

/-- mid_point = points[len(points) // 2] (src/app.py lines 182-183). -/
def midPoint (points : List Pt) : Pt := points.getD (points.length / 2) (0, 0)

/-- Midpoint of the chord from the first to the last point
(src/app.py lines 185-186). -/
def chordMid (points : List Pt) : Pt :=
  (((points.headD (0, 0)).1 + (points.getLastD (0, 0)).1) / 2,
   ((points.headD (0, 0)).2 + (points.getLastD (0, 0)).2) / 2)

/-- src/app.py lines 151-194: the crescent test, guard by guard. -/
def check_crescent_shape (points : List Pt) : Bool × Option Pt :=
  if points.length < 8 then (false, none)
  else if bbWidth points < 0.03 ∨ bbHeight points < 0.03 then (false, none)
  else if min (bbWidth points) (bbHeight points) / max (bbWidth points) (bbHeight points) < 0.2 ∨
      0.75 < min (bbWidth points) (bbHeight points) / max (bbWidth points) (bbHeight points)
    then (false, none)
  else if closureDist points < (bbWidth points + bbHeight points) / 2 * 0.15 then (false, none)
  else if calculate_distance_2d (midPoint points) (chordMid points) <
      (bbWidth points + bbHeight points) / 2 * 0.08
    then (false, none)
  else (true, some (centerX points, centerY points))

/-- The drawing state enum of src/app.py (the strings IDLE / DRAWING). -/
inductive Mode : Type
  | IDLE : Mode
  | DRAWING : Mode
deriving DecidableEq

/-- The per-frame hand observation at the gesture level: the booleans
is_pointing / is_fist computed on lines 259-260 of src/app.py and the
fingertip position (index_tip.x, index_tip.y). -/
structure HandInput : Type where
  pointing : Bool
  fist : Bool
  tip : Pt

/-- The mutable engine state: the globals drawing_state and
drawing_points of src/app.py. -/
structure EngineState : Type where
  mode : Mode
  drawing_points : List Pt

/-- Initial state: drawing_points = [], drawing_state = IDLE
(src/app.py lines 33-34). -/
def initState : EngineState := ⟨Mode.IDLE, []⟩

/-- One frame of the drawing state machine, src/app.py lines 262-291.
Input none models a frame whose hand detection returned no landmarks
(the else branch at line 285).  The outputs are the spawn_fruit and
spawn_banana events (each an optional center). -/
def processFrame (inp : Option HandInput) (s : EngineState) :
    EngineState × Option Pt × Option Pt :=
  match inp with
  | some h =>
    match s.mode with
    | Mode.IDLE =>
      if h.pointing then (⟨Mode.DRAWING, [h.tip]⟩, none, none) else (s, none, none)
    | Mode.DRAWING =>
      if h.pointing then
        let b := s.drawing_points ++ [h.tip]
        let b2 := if 200 < b.length then b.drop (b.length - 200) else b
        (⟨Mode.DRAWING, b2⟩, none, none)
      else if h.fist then
        let cr := check_crescent_shape s.drawing_points
        let ci := check_circle_shape s.drawing_points
        let spawn_banana : Option Pt :=
          match cr with
          | (true, some c) => some c
          | _ => none
        let spawn_fruit : Option Pt :=
          match spawn_banana, ci with
          | none, (true, some c) => some c
          | _, _ => none
        (⟨Mode.IDLE, []⟩, spawn_fruit, spawn_banana)
      else (s, none, none)
  | none =>
    let spawn_fruit : Option Pt :=
      if s.mode = Mode.DRAWING ∧ 10 < s.drawing_points.length then
        match check_circle_shape s.drawing_points with
        | (true, some c) => some c
        | _ => none
      else none
    (⟨Mode.IDLE, []⟩, spawn_fruit, none)

/-- Run the engine over a finite sequence of per-frame inputs,
discarding the emitted events. -/
def run (inputs : List (Option HandInput)) (s : EngineState) : EngineState :=
  inputs.foldl (fun st inp => (processFrame inp st).1) s

/-- Calling both classifiers on the same buffer twice in a row, also
returning the buffer itself, to state purity as observable behavior. -/
def classifyTwice (points : List Pt) :
    ((Bool × Option Pt) × (Bool × Option Pt)) ×
      ((Bool × Option Pt) × (Bool × Option Pt)) × List Pt :=
  ((check_crescent_shape points, check_circle_shape points),
   (check_crescent_shape points, check_circle_shape points), points)

/-- The acceptance condition of the circle test as worded in the spec:
at least 10 points, bounding box at least 0.05 in both axes, aspect at
least 0.6, first-to-last distance at most 0.5 * (w+h)/4, and coefficient
of variation of the center distances below 0.5. -/
def CirclePos (points : List Pt) : Prop :=
  10 ≤ points.length ∧
    0.05 ≤ bbWidth points ∧ 0.05 ≤ bbHeight points ∧
    0.6 ≤ min (bbWidth points) (bbHeight points) / max (bbWidth points) (bbHeight points) ∧
    closureDist points ≤ 0.5 * ((bbWidth points + bbHeight points) / 4) ∧
    stdR (distList points) / meanR (distList points) < 0.5

/-- All points of the list lie on one line a*x + b*y = c. -/
def CollinearPts (points : List Pt) : Prop :=
  ∃ a b c : ℝ, ¬ (a = 0 ∧ b = 0) ∧ ∀ p ∈ points, a * p.1 + b * p.2 = c

/-- A ten-point trajectory on the circle of radius 0.25 around
(0.5, 0.5) that satisfies both the crescent and the circle predicate. -/
def bothShapePts : List Pt :=
  [(0.74, 0.57), (0.74, 0.43), (0.26, 0.43), (0.70, 0.35), (0.30, 0.35),
   (0.26, 0.57), (0.30, 0.65), (0.70, 0.35), (0.26, 0.43), (0.70, 0.65)]

/-- Eleven collinear points traversed monotonically along the diagonal
from (0.3, 0.3) to (0.5, 0.5). -/
def linePts : List Pt :=
  [(0.3, 0.3), (0.32, 0.32), (0.34, 0.34), (0.36, 0.36), (0.38, 0.38),
   (0.4, 0.4), (0.42, 0.42), (0.44, 0.44), (0.46, 0.46), (0.48, 0.48), (0.5, 0.5)]

/-- Ten collinear points that jump between the two spots (0.3, 0.3) and
(0.4, 0.4), with first = last and the positional midpoint equal to the
chord midpoint. -/
def backForthPts : List Pt :=
  [(0.3, 0.3), (0.4, 0.4), (0.4, 0.4), (0.4, 0.4), (0.4, 0.4),
   (0.3, 0.3), (0.4, 0.4), (0.4, 0.4), (0.4, 0.4), (0.3, 0.3)]

/-- 250 pairwise distinct fingertip positions. -/
def manyTips : List Pt := (List.range 250).map (fun (i : ℕ) => ((i : ℝ) / 250, 0))

/-- Encode a list of fingertip positions as POINTING frames. -/
def pointingFrames (ps : List Pt) : List (Option HandInput) :=
  ps.map (fun p => some ⟨true, false, p⟩)

theorem maxR_mem : ∀ (l : List ℝ), l ≠ [] → maxR l ∈ l := by
  intro l
  induction l with
  | nil => intro h; exact absurd rfl h
  | cons a t ih =>
    intro _
    cases t with
    | nil => simp [maxR]
    | cons b t2 =>
      rcases le_total a (maxR (b :: t2)) with h | h
      · have hm : maxR (a :: b :: t2) = maxR (b :: t2) := by
          simp [maxR, max_eq_right h]
        rw [hm]
        exact List.mem_cons_of_mem a (ih (by simp))
      · have hm : maxR (a :: b :: t2) = a := by simp [maxR, max_eq_left h]
        rw [hm]; exact List.mem_cons_self a _

theorem le_maxR : ∀ (l : List ℝ) (x : ℝ), x ∈ l → x ≤ maxR l := by
  intro l
  induction l with
  | nil => intro x h; simp at h
  | cons a t ih =>
    intro x hx
    cases t with
    | nil => simp at hx; simp [maxR, hx]
    | cons b t2 =>
      rcases List.mem_cons.mp hx with rfl | h
      · simp [maxR]
      · exact le_trans (ih x h) (by simp [maxR])

theorem minR_le : ∀ (l : List ℝ) (x : ℝ), x ∈ l → minR l ≤ x := by
  intro l
  induction l with
  | nil => intro x h; simp at h
  | cons a t ih =>
    intro x hx
    cases t with
    | nil => simp at hx; simp [minR, hx]
    | cons b t2 =>
      rcases List.mem_cons.mp hx with rfl | h
      · simp [minR]
      · exact le_trans (by simp [minR]) (ih x h)

theorem dist2d_nonneg (p q : Pt) : 0 ≤ calculate_distance_2d p q :=
  Real.sqrt_nonneg _

theorem abs_dx_le_dist2d (p q : Pt) : |p.1 - q.1| ≤ calculate_distance_2d p q := by
  rw [← Real.sqrt_sq_eq_abs]
  exact Real.sqrt_le_sqrt (by nlinarith [sq_nonneg (p.2 - q.2)])

/-- When the bounding box is at least 0.05 wide, the mean distance from
the points to the bounding-box center is strictly positive, so the
division guard in the circle test never fires. -/
theorem meanDist_pos (points : List Pt) (hne : points ≠ [])
    (hw : 0.05 ≤ bbWidth points) : 0 < meanR (distList points) := by
  have hxs : xsOf points ≠ [] := by
    simpa [xsOf] using hne
  obtain ⟨p, hp, hpx⟩ : ∃ p ∈ points, p.1 = maxR (xsOf points) := by
    have hmem := maxR_mem (xsOf points) hxs
    rcases List.mem_map.mp hmem with ⟨p, hp, hpx⟩
    exact ⟨p, hp, hpx⟩
  have hkey : 0.025 ≤ calculate_distance_2d p (centerX points, centerY points) := by
    have heq : p.1 - centerX points = (maxR (xsOf points) - minR (xsOf points)) / 2 := by
      rw [hpx, centerX]; ring
    have hbb : (0.05 : ℝ) ≤ maxR (xsOf points) - minR (xsOf points) := hw
    have h1 : (0.025 : ℝ) ≤ |p.1 - centerX points| := by
      rw [heq]
      calc (0.025 : ℝ) ≤ (maxR (xsOf points) - minR (xsOf points)) / 2 := by linarith
        _ ≤ |(maxR (xsOf points) - minR (xsOf points)) / 2| := le_abs_self _
    exact le_trans h1 (abs_dx_le_dist2d p (centerX points, centerY points))
  have hmem : calculate_distance_2d p (centerX points, centerY points) ∈ distList points :=
    List.mem_map_of_mem _ hp
  have hsum : (0.025 : ℝ) ≤ (distList points).sum :=
    le_trans hkey
      (List.single_le_sum (fun x hx => by
        rcases List.mem_map.mp hx with ⟨q, _, rfl⟩
        exact dist2d_nonneg q _) _ hmem)
  have hlen : 0 < ((distList points).length : ℝ) := by
    have : 0 < (distList points).length := by
      simp only [distList, List.length_map]
      exact List.length_pos.mpr hne
    exact_mod_cast this
  exact div_pos (by linarith) hlen

/-- C1: the circle test returns a positive result iff the buffer has at
least 10 points, the bounding box is at least 0.05 wide and high, the
aspect ratio is at least 0.6, the first-to-last distance is at most
0.5 * (w+h)/4, and the coefficient of variation of the center distances
is below 0.5; on acceptance the center is exactly the bounding-box
midpoint and on rejection no center is returned. -/
theorem circle_test_characterization (points : List Pt) :
    ((check_circle_shape points).1 = true ↔ CirclePos points) ∧
    (check_circle_shape points).2 =
      (if (check_circle_shape points).1 = true
        then some (centerX points, centerY points) else none) := by
  constructor
  · unfold check_circle_shape CirclePos
    split_ifs with h1 h2 h3 h4 h5 h6 h7
    · simp only [Bool.false_eq_true, false_iff]
      intro hc
      omega
    · simp only [Bool.false_eq_true, false_iff]
      rintro ⟨-, hw, hh, -⟩
      rcases h2 with h2 | h2 <;> linarith
    · simp only [Bool.false_eq_true, false_iff]
      rintro ⟨-, -, -, ha, -⟩
      linarith
    · simp only [Bool.false_eq_true, false_iff]
      rintro ⟨-, -, -, -, hc, -⟩
      linarith
    · simp only [true_iff]
      push_neg at h1 h2 h4
      exact ⟨h1, h2.1, h2.2, by linarith, by linarith, h6⟩
    · simp only [Bool.false_eq_true, false_iff]
      rintro ⟨-, -, -, -, -, hcv⟩
      exact h6 hcv
    · norm_num at h7
    · simp only [Bool.false_eq_true, false_iff]
      push_neg at h1 h2
      rintro ⟨-, -, -, -, -, hcv⟩
      have hne : points ≠ [] := List.length_pos.mp (by omega)
      exact h5 (meanDist_pos points hne h2.1)
  · unfold check_circle_shape
    split_ifs <;> simp_all

/-- If the crescent test is positive it returns the bounding-box
midpoint as center. -/
theorem crescent_accept (points : List Pt)
    (h : (check_crescent_shape points).1 = true) :
    check_crescent_shape points = (true, some (centerX points, centerY points)) := by
  unfold check_crescent_shape at h ⊢
  split_ifs at h ⊢
  all_goals simp_all

/-- C2: for a buffer passing both the crescent and the circle predicate,
closing with a FIST while DRAWING emits exactly the crescent (banana)
event with the crescent center; the circle event is suppressed. -/
theorem fist_close_crescent_precedence (s : EngineState) (t : Pt)
    (hmode : s.mode = Mode.DRAWING)
    (hcr : (check_crescent_shape s.drawing_points).1 = true)
    (hci : (check_circle_shape s.drawing_points).1 = true) :
    processFrame (some ⟨false, true, t⟩) s =
      (⟨Mode.IDLE, []⟩, none,
        some (centerX s.drawing_points, centerY s.drawing_points)) := by
  obtain ⟨m, pts⟩ := s
  simp only at hmode
  subst hmode
  have hc := crescent_accept pts hcr
  simp [processFrame, hc]

/-- The buffer truncation of src/app.py line 270-271 always equals
dropping all but the last 200 points. -/
theorem trunc_eq_drop (b : List Pt) :
    (if 200 < b.length then b.drop (b.length - 200) else b) =
      b.drop (b.length - 200) := by
  split_ifs with h
  · rfl
  · have : b.length - 200 = 0 := by omega
    rw [this, List.drop_zero]

/-- One engine step keeps the buffer within the 200-point capacity. -/
theorem step_capacity (s : EngineState) (inp : Option HandInput)
    (h : s.drawing_points.length ≤ 200) :
    (processFrame inp s).1.drawing_points.length ≤ 200 := by
  obtain ⟨m, pts⟩ := s
  cases inp with
  | none => simp [processFrame]
  | some hi =>
    cases m with
    | IDLE =>
      by_cases hp : hi.pointing = true
      · simp [processFrame, hp]
      · simpa [processFrame, hp] using h
    | DRAWING =>
      by_cases hp : hi.pointing = true
      · simp only [processFrame, hp, if_true]
        rw [trunc_eq_drop]
        simp only [List.length_drop, List.length_append, List.length_cons,
          List.length_nil]
        omega
      · by_cases hf : hi.fist = true
        · simp [processFrame, hp, hf]
        · simpa [processFrame, hp, hf] using h

/-- One engine step preserves the IDLE-implies-empty invariant. -/
theorem step_idle_empty (s : EngineState) (inp : Option HandInput)
    (h : s.mode = Mode.IDLE → s.drawing_points = []) :
    (processFrame inp s).1.mode = Mode.IDLE →
      (processFrame inp s).1.drawing_points = [] := by
  obtain ⟨m, pts⟩ := s
  cases inp with
  | none => intro; rfl
  | some hi =>
    cases m with
    | IDLE =>
      by_cases hp : hi.pointing = true
      · simp [processFrame, hp]
      · simpa [processFrame, hp] using h
    | DRAWING =>
      by_cases hp : hi.pointing = true
      · simp [processFrame, hp]
      · by_cases hf : hi.fist = true
        · simp [processFrame, hp, hf]
        · simp [processFrame, hp, hf]

theorem run_capacity : ∀ (inputs : List (Option HandInput)) (s : EngineState),
    s.drawing_points.length ≤ 200 → (run inputs s).drawing_points.length ≤ 200 := by
  intro inputs
  induction inputs with
  | nil => intro s h; exact h
  | cons inp rest ih =>
    intro s h
    exact ih _ (step_capacity s inp h)

theorem run_idle_empty : ∀ (inputs : List (Option HandInput)) (s : EngineState),
    (s.mode = Mode.IDLE → s.drawing_points = []) →
    ((run inputs s).mode = Mode.IDLE → (run inputs s).drawing_points = []) := by
  intro inputs
  induction inputs with
  | nil => intro s h; exact h
  | cons inp rest ih =>
    intro s h
    exact ih _ (step_idle_empty s inp h)

/-- C3: every state reachable from the initial state keeps at most 200
buffered points, and a POINTING step in DRAWING keeps exactly the most
recent points (it drops everything but the last 200 of the appended
buffer). -/
theorem buffer_capacity_invariant :
    (∀ inputs : List (Option HandInput),
      (run inputs initState).drawing_points.length ≤ 200) ∧
    (∀ (s : EngineState) (t : Pt) (f : Bool), s.mode = Mode.DRAWING →
      (processFrame (some ⟨true, f, t⟩) s).1.drawing_points =
        (s.drawing_points ++ [t]).drop ((s.drawing_points ++ [t]).length - 200)) := by
  constructor
  · intro inputs
    exact run_capacity inputs initState (by simp [initState])
  · intro s t f hmode
    obtain ⟨m, pts⟩ := s
    simp only at hmode
    subst hmode
    simp only [processFrame, if_true]
    rw [trunc_eq_drop]

/-- A closed instance of the capacity claim: a DRAWING state holding a
single point, stepped with a POINTING frame. -/
theorem buffer_capacity_invariant_witness :
    (run [] initState).drawing_points.length ≤ 200 ∧
    (⟨Mode.DRAWING, [((0.4 : ℝ), (0.4 : ℝ))]⟩ : EngineState).mode = Mode.DRAWING ∧
    (processFrame (some ⟨true, false, ((0.5 : ℝ), (0.5 : ℝ))⟩)
        ⟨Mode.DRAWING, [((0.4 : ℝ), (0.4 : ℝ))]⟩).1.drawing_points =
      ([((0.4 : ℝ), (0.4 : ℝ))] ++ [((0.5 : ℝ), (0.5 : ℝ))]).drop
        (([((0.4 : ℝ), (0.4 : ℝ))] ++ [((0.5 : ℝ), (0.5 : ℝ))]).length - 200) :=
  ⟨buffer_capacity_invariant.1 [], rfl,
    buffer_capacity_invariant.2 ⟨Mode.DRAWING, [(0.4, 0.4)]⟩ (0.5, 0.5) false rfl⟩

/-- C4: in every reachable state, IDLE implies an empty buffer, and
every single step preserves this invariant. -/
theorem idle_empty_invariant :
    (∀ inputs : List (Option HandInput),
      (run inputs initState).mode = Mode.IDLE →
        (run inputs initState).drawing_points = []) ∧
    (∀ (s : EngineState) (inp : Option HandInput),
      (s.mode = Mode.IDLE → s.drawing_points = []) →
      ((processFrame inp s).1.mode = Mode.IDLE →
        (processFrame inp s).1.drawing_points = [])) := by
  constructor
  · intro inputs
    exact run_idle_empty inputs initState (fun _ => rfl)
  · exact step_idle_empty

/-- A closed instance of the IDLE-empty claim: start drawing and close
with a fist; the engine returns to IDLE with an empty buffer. -/
theorem idle_empty_invariant_witness :
    ((run [some ⟨true, false, ((0.4 : ℝ), (0.4 : ℝ))⟩, some ⟨false, true, ((0.4 : ℝ), (0.4 : ℝ))⟩]
        initState).mode = Mode.IDLE) ∧
    ((run [some ⟨true, false, ((0.4 : ℝ), (0.4 : ℝ))⟩, some ⟨false, true, ((0.4 : ℝ), (0.4 : ℝ))⟩]
        initState).drawing_points = []) ∧
    (initState.mode = Mode.IDLE → initState.drawing_points = []) ∧
    ((processFrame none initState).1.mode = Mode.IDLE →
      (processFrame none initState).1.drawing_points = []) := by
  refine ⟨?_, ?_, fun _ => rfl, ?_⟩
  · simp [run, processFrame, initState]
  · apply idle_empty_invariant.1
    simp [run, processFrame, initState]
  · exact idle_empty_invariant.2 initState none (fun _ => rfl)

/-- C5: a frame with no hand observation resets the engine to IDLE with
an empty buffer, never emits a banana event, and emits a fruit event
exactly when the engine was DRAWING with more than 10 buffered points
and the circle test is positive (the crescent test is never consulted). -/
theorem hand_loss_circle_only (s : EngineState) :
    processFrame none s =
      (⟨Mode.IDLE, []⟩,
        (if s.mode = Mode.DRAWING ∧ 10 < s.drawing_points.length ∧
            (check_circle_shape s.drawing_points).1 = true
          then (check_circle_shape s.drawing_points).2 else none),
        none) := by
  obtain ⟨m, pts⟩ := s
  simp only [processFrame]
  rcases hci : check_circle_shape pts with ⟨b, co⟩
  cases m <;> cases b <;> cases co <;> simp_all [processFrame]

/-- Re-windowing after an earlier truncation is the same as windowing
the whole concatenation: the per-frame sliding window commutes with
batching. -/
theorem window_absorb (l r : List Pt) :
    ((l.drop (l.length - 200)) ++ r).drop
        (((l.drop (l.length - 200)) ++ r).length - 200) =
      (l ++ r).drop ((l ++ r).length - 200) := by
  have hk : l.length - 200 ≤ l.length := Nat.sub_le _ _
  rw [← List.drop_append_of_le_length hk, List.drop_drop]
  congr 1
  simp only [List.length_drop, List.length_append]
  omega

/-- Feeding POINTING frames while DRAWING (from a buffer within
capacity) leaves the window of the concatenated trajectory. -/
theorem run_pointing_window : ∀ (ps b : List Pt), b.length ≤ 200 →
    run (pointingFrames ps) ⟨Mode.DRAWING, b⟩ =
      ⟨Mode.DRAWING, (b ++ ps).drop ((b ++ ps).length - 200)⟩ := by
  intro ps
  induction ps with
  | nil =>
    intro b hb
    have : b.length - 200 = 0 := by omega
    simp [pointingFrames, run, this]
  | cons p rest ih =>
    intro b hb
    have hstep : run (pointingFrames (p :: rest)) ⟨Mode.DRAWING, b⟩ =
        run (pointingFrames rest)
          ⟨Mode.DRAWING, (b ++ [p]).drop ((b ++ [p]).length - 200)⟩ := by
      simp only [pointingFrames, List.map_cons, run, List.foldl_cons]
      congr 1
      simp [processFrame, trunc_eq_drop]
      intro h
      rw [show b.length - 199 = 0 from by omega, List.drop_zero]
    rw [hstep, ih]
    · rw [show ((b ++ [p]).drop ((b ++ [p]).length - 200)) ++ rest =
          ((b ++ [p]).drop ((b ++ [p]).length - 200)) ++ rest from rfl]
      rw [window_absorb (b ++ [p]) rest]
      simp [List.append_assoc]
    · simp only [List.length_drop, List.length_append, List.length_cons,
        List.length_nil]
      omega

/-- C6: from any DRAWING state within capacity, 250 POINTING frames with
distinct fingertip positions leave exactly the most recent 200 positions
in arrival order (the first 50 are evicted). -/
theorem overflow_keeps_recent_200 (b ps : List Pt) (hb : b.length ≤ 200)
    (hlen : ps.length = 250) (_hnd : ps.Nodup) :
    (run (pointingFrames ps) ⟨Mode.DRAWING, b⟩).drawing_points = ps.drop 50 ∧
    (run (pointingFrames ps) ⟨Mode.DRAWING, b⟩).drawing_points.length = 200 ∧
    (run (pointingFrames ps) ⟨Mode.DRAWING, b⟩).mode = Mode.DRAWING := by
  rw [run_pointing_window ps b hb]
  have hdrop : (b ++ ps).drop ((b ++ ps).length - 200) = ps.drop 50 := by
    have hcount : (b ++ ps).length - 200 = b.length + 50 := by
      simp only [List.length_append, hlen]
      omega
    rw [hcount, List.drop_append 50]
  refine ⟨hdrop, ?_, rfl⟩
  rw [hdrop]
  simp [hlen]

/-- The 250 positions of manyTips are pairwise distinct. -/
theorem manyTips_nodup : manyTips.Nodup := by
  unfold manyTips
  refine List.Nodup.map ?_ (List.nodup_range 250)
  intro i j hij
  have h1 : ((i : ℝ) / 250) = ((j : ℝ) / 250) := congrArg Prod.fst hij
  field_simp at h1
  exact h1

theorem manyTips_length : manyTips.length = 250 := by
  unfold manyTips
  rw [List.length_map, List.length_range]

/-- A closed instance of the overflow claim, on 250 concrete distinct
fingertip positions fed to a DRAWING state holding one point. -/
theorem overflow_keeps_recent_200_witness :
    ([((0.5 : ℝ), (0.5 : ℝ))] : List Pt).length ≤ 200 ∧
    manyTips.length = 250 ∧ manyTips.Nodup ∧
    ((run (pointingFrames manyTips)
        ⟨Mode.DRAWING, [((0.5 : ℝ), (0.5 : ℝ))]⟩).drawing_points = manyTips.drop 50 ∧
      (run (pointingFrames manyTips)
        ⟨Mode.DRAWING, [((0.5 : ℝ), (0.5 : ℝ))]⟩).drawing_points.length = 200 ∧
      (run (pointingFrames manyTips)
        ⟨Mode.DRAWING, [((0.5 : ℝ), (0.5 : ℝ))]⟩).mode = Mode.DRAWING) :=
  ⟨by simp, manyTips_length, manyTips_nodup,
    overflow_keeps_recent_200 [(0.5, 0.5)] manyTips (by simp)
      manyTips_length manyTips_nodup⟩

/-- C9: both shape tests are deterministic pure functions: evaluating
the classifier pair twice on the same buffer yields identical results
both times, and the buffer itself is returned unmodified. -/
theorem shape_tests_pure (points : List Pt) :
    classifyTwice points =
      ((check_crescent_shape points, check_circle_shape points),
        (check_crescent_shape points, check_circle_shape points), points) ∧
    (classifyTwice points).1 = (classifyTwice points).2.1 ∧
    (classifyTwice points).2.2 = points :=
  ⟨rfl, rfl, rfl⟩

/-- C10: a finger is extended iff its tip is farther (3D Euclidean) from
the wrist than its pip joint; POINTING iff index extended and the other
three flexed; FIST iff all four flexed; consequently no pose is both
POINTING and FIST. -/
theorem gesture_classification (landmarks : List Landmark) :
    (∀ tipId pipId : ℕ,
      is_finger_extended landmarks tipId pipId (landmarks.getD 0 (0, 0, 0)) ↔
        calculate_distance (landmarks.getD tipId (0, 0, 0)) (landmarks.getD 0 (0, 0, 0)) >
          calculate_distance (landmarks.getD pipId (0, 0, 0)) (landmarks.getD 0 (0, 0, 0))) ∧
    (detect_index_pointing landmarks ↔
      is_finger_extended landmarks 8 6 (landmarks.getD 0 (0, 0, 0)) ∧
        ¬ is_finger_extended landmarks 12 10 (landmarks.getD 0 (0, 0, 0)) ∧
        ¬ is_finger_extended landmarks 16 14 (landmarks.getD 0 (0, 0, 0)) ∧
        ¬ is_finger_extended landmarks 20 18 (landmarks.getD 0 (0, 0, 0))) ∧
    (detect_fist landmarks ↔
      ¬ is_finger_extended landmarks 8 6 (landmarks.getD 0 (0, 0, 0)) ∧
        ¬ is_finger_extended landmarks 12 10 (landmarks.getD 0 (0, 0, 0)) ∧
        ¬ is_finger_extended landmarks 16 14 (landmarks.getD 0 (0, 0, 0)) ∧
        ¬ is_finger_extended landmarks 20 18 (landmarks.getD 0 (0, 0, 0))) ∧
    ¬ (detect_index_pointing landmarks ∧ detect_fist landmarks) := by
  refine ⟨fun _ _ => Iff.rfl, Iff.rfl, Iff.rfl, ?_⟩
  rintro ⟨⟨hext, -⟩, ⟨hnext, -⟩⟩
  exact hnext hext

theorem dist2d_eq (p q : Pt) (c : ℝ) (hc : 0 ≤ c)
    (h : (p.1 - q.1) ^ 2 + (p.2 - q.2) ^ 2 = c ^ 2) :
    calculate_distance_2d p q = c := by
  unfold calculate_distance_2d
  rw [h]
  exact Real.sqrt_sq hc

theorem dist2d_self (p : Pt) : calculate_distance_2d p p = 0 := by
  unfold calculate_distance_2d
  simp [Real.sqrt_zero]

theorem meanR_replicate (n : ℕ) (hn : n ≠ 0) (x : ℝ) :
    meanR (List.replicate n x) = x := by
  simp only [meanR, List.sum_replicate, List.length_replicate, nsmul_eq_mul]
  field_simp

theorem stdR_replicate (n : ℕ) (hn : n ≠ 0) (x : ℝ) :
    stdR (List.replicate n x) = 0 := by
  unfold stdR
  rw [meanR_replicate n hn x]
  simp [List.map_replicate, List.sum_replicate]

theorem bothShapePts_distList :
    distList bothShapePts = List.replicate 10 (0.25 : ℝ) := by
  have hcx : centerX bothShapePts = 0.5 := by
    norm_num [centerX, bothShapePts, xsOf, maxR, minR, max_def, min_def]
  have hcy : centerY bothShapePts = 0.5 := by
    norm_num [centerY, bothShapePts, ysOf, maxR, minR, max_def, min_def]
  have e1 : calculate_distance_2d (0.74, 0.57) (0.5, 0.5) = 0.25 :=
    dist2d_eq _ _ _ (by norm_num) (by norm_num)
  have e2 : calculate_distance_2d (0.74, 0.43) (0.5, 0.5) = 0.25 :=
    dist2d_eq _ _ _ (by norm_num) (by norm_num)
  have e3 : calculate_distance_2d (0.26, 0.43) (0.5, 0.5) = 0.25 :=
    dist2d_eq _ _ _ (by norm_num) (by norm_num)
  have e4 : calculate_distance_2d (0.70, 0.35) (0.5, 0.5) = 0.25 :=
    dist2d_eq _ _ _ (by norm_num) (by norm_num)
  have e5 : calculate_distance_2d (0.30, 0.35) (0.5, 0.5) = 0.25 :=
    dist2d_eq _ _ _ (by norm_num) (by norm_num)
  have e6 : calculate_distance_2d (0.26, 0.57) (0.5, 0.5) = 0.25 :=
    dist2d_eq _ _ _ (by norm_num) (by norm_num)
  have e7 : calculate_distance_2d (0.30, 0.65) (0.5, 0.5) = 0.25 :=
    dist2d_eq _ _ _ (by norm_num) (by norm_num)
  have e8 : calculate_distance_2d (0.70, 0.65) (0.5, 0.5) = 0.25 :=
    dist2d_eq _ _ _ (by norm_num) (by norm_num)
  unfold distList
  rw [hcx, hcy]
  simp only [bothShapePts, List.map_cons, List.map_nil]
  rw [e1, e2, e3, e4, e5, e6, e7, e8]
  rfl

/-- The ten-point witness buffer passes the circle test with the
bounding-box midpoint (0.5, 0.5) as center. -/
theorem bothShapePts_circle :
    check_circle_shape bothShapePts = (true, some (0.5, 0.5)) := by
  have hW : bbWidth bothShapePts = 0.48 := by
    norm_num [bbWidth, bothShapePts, xsOf, maxR, minR, max_def, min_def]
  have hH : bbHeight bothShapePts = 0.30 := by
    norm_num [bbHeight, bothShapePts, ysOf, maxR, minR, max_def, min_def]
  have hcx : centerX bothShapePts = 0.5 := by
    norm_num [centerX, bothShapePts, xsOf, maxR, minR, max_def, min_def]
  have hcy : centerY bothShapePts = 0.5 := by
    norm_num [centerY, bothShapePts, ysOf, maxR, minR, max_def, min_def]
  have hlen : bothShapePts.length = 10 := by simp [bothShapePts]
  have hclo : closureDist bothShapePts = Real.sqrt 0.008 := by
    unfold closureDist calculate_distance_2d
    norm_num [bothShapePts]
  have hclo_ub : closureDist bothShapePts ≤ 0.0975 := by
    rw [hclo]
    rw [show (0.0975 : ℝ) = Real.sqrt (0.0975 ^ 2) from (Real.sqrt_sq (by norm_num)).symm]
    exact Real.sqrt_le_sqrt (by norm_num)
  have hmrep : meanR (List.replicate 10 (0.25 : ℝ)) = 0.25 :=
    meanR_replicate 10 (by norm_num) _
  have hmean : meanR (distList bothShapePts) = 0.25 := by
    rw [bothShapePts_distList]; exact hmrep
  have hstd : stdR (distList bothShapePts) = 0 := by
    rw [bothShapePts_distList]
    exact stdR_replicate 10 (by norm_num) _
  unfold check_circle_shape
  rw [if_neg (by rw [hlen]; norm_num : ¬ (bothShapePts.length < 10))]
  rw [if_neg (by rw [hW, hH]; norm_num :
    ¬ (bbWidth bothShapePts < 0.05 ∨ bbHeight bothShapePts < 0.05))]
  rw [if_neg (by rw [hW, hH]; norm_num [min_def, max_def] :
    ¬ (min (bbWidth bothShapePts) (bbHeight bothShapePts) /
        max (bbWidth bothShapePts) (bbHeight bothShapePts) < 0.6))]
  rw [if_neg (by rw [hW, hH]; push_neg; linarith [hclo_ub] :
    ¬ ((bbWidth bothShapePts + bbHeight bothShapePts) / 4 * 0.5 < closureDist bothShapePts))]
  rw [if_pos (by rw [if_pos (by rw [hmean]; norm_num)]; rw [hmean, hstd]; norm_num :
    (if 0 < meanR (distList bothShapePts)
      then stdR (distList bothShapePts) / meanR (distList bothShapePts)
      else 1) < 0.5)]
  rw [hcx, hcy]

/-- The same buffer also passes the crescent test. -/
theorem bothShapePts_crescent :
    check_crescent_shape bothShapePts = (true, some (0.5, 0.5)) := by
  have hW : bbWidth bothShapePts = 0.48 := by
    norm_num [bbWidth, bothShapePts, xsOf, maxR, minR, max_def, min_def]
  have hH : bbHeight bothShapePts = 0.30 := by
    norm_num [bbHeight, bothShapePts, ysOf, maxR, minR, max_def, min_def]
  have hcx : centerX bothShapePts = 0.5 := by
    norm_num [centerX, bothShapePts, xsOf, maxR, minR, max_def, min_def]
  have hcy : centerY bothShapePts = 0.5 := by
    norm_num [centerY, bothShapePts, ysOf, maxR, minR, max_def, min_def]
  have hlen : bothShapePts.length = 10 := by simp [bothShapePts]
  have hclo : closureDist bothShapePts = Real.sqrt 0.008 := by
    unfold closureDist calculate_distance_2d
    norm_num [bothShapePts]
  have hclo_lb : (0.0585 : ℝ) ≤ closureDist bothShapePts := by
    rw [hclo]
    rw [show (0.0585 : ℝ) = Real.sqrt (0.0585 ^ 2) from (Real.sqrt_sq (by norm_num)).symm]
    exact Real.sqrt_le_sqrt (by norm_num)
  have hmid : calculate_distance_2d (midPoint bothShapePts) (chordMid bothShapePts) =
      Real.sqrt 0.2132 := by
    unfold midPoint chordMid calculate_distance_2d
    norm_num [bothShapePts]
  have hmid_lb : (0.0312 : ℝ) ≤
      calculate_distance_2d (midPoint bothShapePts) (chordMid bothShapePts) := by
    rw [hmid]
    rw [show (0.0312 : ℝ) = Real.sqrt (0.0312 ^ 2) from (Real.sqrt_sq (by norm_num)).symm]
    exact Real.sqrt_le_sqrt (by norm_num)
  unfold check_crescent_shape
  rw [if_neg (by rw [hlen]; norm_num : ¬ (bothShapePts.length < 8))]
  rw [if_neg (by rw [hW, hH]; norm_num :
    ¬ (bbWidth bothShapePts < 0.03 ∨ bbHeight bothShapePts < 0.03))]
  rw [if_neg (by rw [hW, hH]; norm_num [min_def, max_def] :
    ¬ (min (bbWidth bothShapePts) (bbHeight bothShapePts) /
        max (bbWidth bothShapePts) (bbHeight bothShapePts) < 0.2 ∨
      0.75 < min (bbWidth bothShapePts) (bbHeight bothShapePts) /
        max (bbWidth bothShapePts) (bbHeight bothShapePts)))]
  rw [if_neg (by rw [hW, hH]; push_neg; linarith [hclo_lb] :
    ¬ (closureDist bothShapePts <
        (bbWidth bothShapePts + bbHeight bothShapePts) / 2 * 0.15))]
  rw [if_neg (by rw [hW, hH]; push_neg; linarith [hmid_lb] :
    ¬ (calculate_distance_2d (midPoint bothShapePts) (chordMid bothShapePts) <
        (bbWidth bothShapePts + bbHeight bothShapePts) / 2 * 0.08))]
  rw [hcx, hcy]

/-- A closed instance of the crescent-precedence claim: the witness
buffer passes both predicates, and a FIST closure emits exactly the
banana event at the crescent center. -/
theorem fist_close_crescent_precedence_witness :
    ((⟨Mode.DRAWING, bothShapePts⟩ : EngineState).mode = Mode.DRAWING) ∧
    (check_crescent_shape bothShapePts).1 = true ∧
    (check_circle_shape bothShapePts).1 = true ∧
    processFrame (some ⟨false, true, ((0.5 : ℝ), (0.5 : ℝ))⟩)
        ⟨Mode.DRAWING, bothShapePts⟩ =
      (⟨Mode.IDLE, []⟩, none, some (centerX bothShapePts, centerY bothShapePts)) := by
  have hcr : (check_crescent_shape bothShapePts).1 = true := by
    rw [bothShapePts_crescent]
  have hci : (check_circle_shape bothShapePts).1 = true := by
    rw [bothShapePts_circle]
  exact ⟨rfl, hcr, hci,
    fist_close_crescent_precedence ⟨Mode.DRAWING, bothShapePts⟩ (0.5, 0.5) rfl hcr hci⟩

theorem backForthPts_distList :
    distList backForthPts = List.replicate 10 (Real.sqrt 0.005) := by
  have hcx : centerX backForthPts = 0.35 := by
    norm_num [centerX, backForthPts, xsOf, maxR, minR, max_def, min_def]
  have hcy : centerY backForthPts = 0.35 := by
    norm_num [centerY, backForthPts, ysOf, maxR, minR, max_def, min_def]
  have e1 : calculate_distance_2d (0.3, 0.3) (0.35, 0.35) = Real.sqrt 0.005 := by
    unfold calculate_distance_2d
    norm_num
  have e2 : calculate_distance_2d (0.4, 0.4) (0.35, 0.35) = Real.sqrt 0.005 := by
    unfold calculate_distance_2d
    norm_num
  unfold distList
  rw [hcx, hcy]
  simp only [backForthPts, List.map_cons, List.map_nil]
  rw [e1, e2]
  rfl

/-- The back-and-forth collinear buffer is accepted by the circle test:
all its points sit at the same distance from the bounding-box center. -/
theorem backForthPts_circle :
    (check_circle_shape backForthPts).1 = true := by
  have hW : bbWidth backForthPts = 0.1 := by
    norm_num [bbWidth, backForthPts, xsOf, maxR, minR, max_def, min_def]
  have hH : bbHeight backForthPts = 0.1 := by
    norm_num [bbHeight, backForthPts, ysOf, maxR, minR, max_def, min_def]
  have hlen : backForthPts.length = 10 := by simp [backForthPts]
  have hclo : closureDist backForthPts = 0 := by
    unfold closureDist calculate_distance_2d
    norm_num [backForthPts, Real.sqrt_zero]
  have hmean : meanR (distList backForthPts) = Real.sqrt 0.005 := by
    rw [backForthPts_distList]
    exact meanR_replicate 10 (by norm_num) _
  have hmean_pos : 0 < meanR (distList backForthPts) := by
    rw [hmean]
    exact Real.sqrt_pos.mpr (by norm_num)
  have hstd : stdR (distList backForthPts) = 0 := by
    rw [backForthPts_distList]
    exact stdR_replicate 10 (by norm_num) _
  unfold check_circle_shape
  rw [if_neg (by rw [hlen]; norm_num : ¬ (backForthPts.length < 10))]
  rw [if_neg (by rw [hW, hH]; norm_num :
    ¬ (bbWidth backForthPts < 0.05 ∨ bbHeight backForthPts < 0.05))]
  rw [if_neg (by rw [hW, hH]; norm_num [min_def, max_def] :
    ¬ (min (bbWidth backForthPts) (bbHeight backForthPts) /
        max (bbWidth backForthPts) (bbHeight backForthPts) < 0.6))]
  rw [if_neg (by rw [hW, hH, hclo]; norm_num :
    ¬ ((bbWidth backForthPts + bbHeight backForthPts) / 4 * 0.5 <
        closureDist backForthPts))]
  rw [if_pos (by rw [if_pos hmean_pos, hmean, hstd, zero_div]; norm_num :
    (if 0 < meanR (distList backForthPts)
      then stdR (distList backForthPts) / meanR (distList backForthPts)
      else 1) < 0.5)]

/-- C7 counterexample: a collinear, zero-bow, aspect-compatible buffer
(jumping back and forth between two spots on a line) on which the
circle test is POSITIVE, refuting the claim that every such buffer is
rejected by both tests. -/
theorem straight_line_claim_counterexample :
    CollinearPts backForthPts ∧
    midPoint backForthPts = chordMid backForthPts ∧
    0.6 ≤ min (bbWidth backForthPts) (bbHeight backForthPts) /
        max (bbWidth backForthPts) (bbHeight backForthPts) ∧
    (check_circle_shape backForthPts).1 = true := by
  refine ⟨⟨1, -1, 0, by norm_num, ?_⟩, ?_, ?_, backForthPts_circle⟩
  · intro p hp
    fin_cases hp <;> norm_num
  · norm_num [midPoint, chordMid, backForthPts]
  · have hW : bbWidth backForthPts = 0.1 := by
      norm_num [bbWidth, backForthPts, xsOf, maxR, minR, max_def, min_def]
    have hH : bbHeight backForthPts = 0.1 := by
      norm_num [bbHeight, backForthPts, ysOf, maxR, minR, max_def, min_def]
    rw [hW, hH]
    norm_num [min_def, max_def]

/-- C7 (amended): for a collinear buffer with zero bow whose chord from
first to last point spans the full bounding box in both axes (as it does
for a monotone straight stroke), both shape tests return a negative
result with no center. -/
theorem straight_line_rejected (ps : List Pt)
    (_hcol : CollinearPts ps)
    (hbow : midPoint ps = chordMid ps)
    (_hasp : 0.6 ≤ min (bbWidth ps) (bbHeight ps) / max (bbWidth ps) (bbHeight ps))
    (hdx : |(ps.headD (0, 0)).1 - (ps.getLastD (0, 0)).1| = bbWidth ps)
    (hdy : |(ps.headD (0, 0)).2 - (ps.getLastD (0, 0)).2| = bbHeight ps) :
    check_circle_shape ps = (false, none) ∧
      check_crescent_shape ps = (false, none) := by
  constructor
  · unfold check_circle_shape
    split_ifs with h1 h2 h3 h4 h5 h6 h7 <;> try rfl
    all_goals exfalso
    all_goals {
      push_neg at h2
      have hw := h2.1
      have hh := h2.2
      have hclo : (bbWidth ps + bbHeight ps) / 2 ≤ closureDist ps := by
        have e1 : ((ps.headD (0, 0)).1 - (ps.getLastD (0, 0)).1) ^ 2 =
            (bbWidth ps) ^ 2 := by
          rw [← sq_abs, hdx]
        have e2 : ((ps.headD (0, 0)).2 - (ps.getLastD (0, 0)).2) ^ 2 =
            (bbHeight ps) ^ 2 := by
          rw [← sq_abs, hdy]
        unfold closureDist calculate_distance_2d
        rw [e1, e2]
        rw [Real.le_sqrt (by linarith) (by positivity)]
        nlinarith [sq_nonneg (bbWidth ps - bbHeight ps)]
      linarith
    }
  · unfold check_crescent_shape
    split_ifs with h1 h2 h3 h4 h5 <;> try rfl
    exfalso
    push_neg at h2 h5
    have hmid0 : calculate_distance_2d (midPoint ps) (chordMid ps) = 0 := by
      rw [hbow]
      exact dist2d_self _
    rw [hmid0] at h5
    have hw := h2.1
    have hh := h2.2
    linarith

/-- A closed instance of the amended straight-line claim, on a monotone
collinear stroke along the diagonal. -/
theorem straight_line_rejected_witness :
    CollinearPts linePts ∧
    midPoint linePts = chordMid linePts ∧
    0.6 ≤ min (bbWidth linePts) (bbHeight linePts) /
        max (bbWidth linePts) (bbHeight linePts) ∧
    |(linePts.headD (0, 0)).1 - (linePts.getLastD (0, 0)).1| = bbWidth linePts ∧
    |(linePts.headD (0, 0)).2 - (linePts.getLastD (0, 0)).2| = bbHeight linePts ∧
    (check_circle_shape linePts = (false, none) ∧
      check_crescent_shape linePts = (false, none)) := by
  have hW : bbWidth linePts = 0.2 := by
    norm_num [bbWidth, linePts, xsOf, maxR, minR, max_def, min_def]
  have hH : bbHeight linePts = 0.2 := by
    norm_num [bbHeight, linePts, ysOf, maxR, minR, max_def, min_def]
  have h1 : CollinearPts linePts := by
    refine ⟨1, -1, 0, by norm_num, ?_⟩
    intro p hp
    fin_cases hp <;> norm_num
  have h2 : midPoint linePts = chordMid linePts := by
    norm_num [midPoint, chordMid, linePts]
  have h3 : 0.6 ≤ min (bbWidth linePts) (bbHeight linePts) /
      max (bbWidth linePts) (bbHeight linePts) := by
    rw [hW, hH]
    norm_num [min_def, max_def]
  have h4 : |(linePts.headD (0, 0)).1 - (linePts.getLastD (0, 0)).1| = bbWidth linePts := by
    rw [hW]
    norm_num [linePts, abs_sub_comm, abs_of_nonneg]
  have h5 : |(linePts.headD (0, 0)).2 - (linePts.getLastD (0, 0)).2| = bbHeight linePts := by
    rw [hH]
    norm_num [linePts, abs_sub_comm, abs_of_nonneg]
  exact ⟨h1, h2, h3, h4, h5, straight_line_rejected linePts h1 h2 h3 h4 h5⟩

/-- C8: the shape tests are total.  Whenever the circle test reaches the
coefficient-of-variation stage (at least 10 points and a bounding box at
least 0.05 wide) the mean center distance is strictly positive, so the
mean-zero fallback branch is unreachable; and the crescent midpoint
index len/2 is always in range once the 8-point guard has passed. -/
theorem shape_tests_total (ps : List Pt) :
    (10 ≤ ps.length → 0.05 ≤ bbWidth ps → 0 < meanR (distList ps)) ∧
    (8 ≤ ps.length → ps.length / 2 < ps.length) := by
  constructor
  · intro hl hw
    exact meanDist_pos ps (List.length_pos.mp (by omega)) hw
  · intro h
    omega

/-- A closed instance of the totality claim on the diagonal stroke. -/
theorem shape_tests_total_witness :
    (10 ≤ linePts.length ∧ (0.05 : ℝ) ≤ bbWidth linePts ∧
      0 < meanR (distList linePts)) ∧
    (8 ≤ linePts.length ∧ linePts.length / 2 < linePts.length) := by
  have hl : 10 ≤ linePts.length := by simp [linePts]
  have hl8 : 8 ≤ linePts.length := by simp [linePts]
  have hW : (0.05 : ℝ) ≤ bbWidth linePts := by
    norm_num [bbWidth, linePts, xsOf, maxR, minR, max_def, min_def]
  exact ⟨⟨hl, hW, (shape_tests_total linePts).1 hl hW⟩,
    ⟨hl8, (shape_tests_total linePts).2 hl8⟩⟩

end ARMukbang

end
